import Mathlib

/-!
Shallow embedding of the toytcp connection engine (src/src/tcp.rs).

Machine integers are modelled as `Nat` with explicit modular reduction where
the Rust code can overflow or wrap.  Rust release builds wrap on unsigned
subtraction; debug builds panic there.  We model the wrapping (release)
semantics for arithmetic, and model a panic (`Option.none`) at slice
indexing, which is a panic in both build modes.  Every refutation below is
insensitive to this choice: whenever our model returns `none` because of an
out-of-bounds slice, the debug build panics at or before the same point.
-/

namespace ToyTcp

/-- The modulus 2^32 of `u32` arithmetic. -/
def M32 : Nat := 4294967296

/-- The modulus 2^16 of `u16` arithmetic. -/
def M16 : Nat := 65536

/-- The modulus 2^64 of `usize` arithmetic (64-bit target). -/
def M64 : Nat := 18446744073709551616

/-- Wrapping `u32` addition. -/
def add32 (a b : Nat) : Nat := (a + b) % M32

/-- Wrapping `u32` subtraction (release semantics; debug panics on underflow). -/
def sub32 (a b : Nat) : Nat := (a % M32 + M32 - b % M32) % M32

/-- Wrapping `u16` addition. -/
def add16 (a b : Nat) : Nat := (a + b) % M16

/-- Wrapping `u16` subtraction (release semantics; debug panics on underflow). -/
def sub16 (a b : Nat) : Nat := (a % M16 + M16 - b % M16) % M16

/-- Wrapping `usize` subtraction (release semantics; debug panics on underflow). -/
def sub64 (a b : Nat) : Nat := (a % M64 + M64 - b % M64) % M64

/-- Modular sequence-number order of the spec: `a ≤ b` iff `(b − a) mod 2^32 < 2^31`. -/
def modLe (a b : Nat) : Prop := sub32 b a < 2147483648

instance (a b : Nat) : Decidable (modLe a b) := by
  unfold modLe; infer_instance

-- tcpflags (values as in the repository's flag module; only bit identity matters)
def FIN : Nat := 1
def SYN : Nat := 2
def ACK : Nat := 16

-- constants of src/src/tcp.rs
def MAX_TRANSMITTION : Nat := 5
def RETRANSMITTION_TIMEOUT : Nat := 3
def MSS : Nat := 1460
def PORT_RANGE_START : Nat := 40000
def PORT_RANGE_END : Nat := 60000

/-- Socket identity: (local_ip, remote_ip, local_port, remote_port).
In the Rust tuple struct `SockID(Ipv4Addr, Ipv4Addr, u16, u16)`, field `.2`
is the local port. -/
structure SockID where
  local_ip : Nat
  remote_ip : Nat
  local_port : Nat
  remote_port : Nat
deriving DecidableEq, Repr

inductive TcpStatus where
  | Listen | SynSent | SynRcvd | Established
  | FinWait1 | FinWait2 | TimeWait | CloseWait | LastAck
deriving DecidableEq, Repr

structure SendParam where
  initial_seq : Nat
  unacked_seq : Nat
  next : Nat
  window : Nat
deriving DecidableEq, Repr

structure RecvParam where
  initial_seq : Nat
  next : Nat
  tail : Nat
  window : Nat
deriving DecidableEq, Repr

/-- An inbound TCP segment, as exposed by the segment codec. -/
structure TCPPacket where
  seq : Nat
  ack : Nat
  flag : Nat
  window_size : Nat
  payload : List Nat
deriving DecidableEq, Repr

/-- An outbound segment as handed to `send_tcp_packet(seq, ack, flag, payload)`. -/
structure SentSeg where
  seq : Nat
  ack : Nat
  flag : Nat
  payload : List Nat
deriving DecidableEq, Repr

/-- Retransmission-queue entry `{packet, latest_transmission_time, transmission_count}`. -/
structure RtxEntry where
  packet : TCPPacket
  latest_transmission_time : Nat
  transmission_count : Nat
deriving DecidableEq, Repr

structure Socket where
  status : TcpStatus
  send_param : SendParam
  recv_param : RecvParam
  recv_buffer : List Nat
  retransmission_queue : List RtxEntry
  listening_socket : Option SockID
  connection_established_queue : List SockID
deriving DecidableEq, Repr

inductive TCPEventKind where
  | ConnectionCompleted | Acked | DataArrived | ConnectionClosed
deriving DecidableEq, Repr

/-- Outcome of `close` regarding the socket table: block on CONNECTION-CLOSED
then remove, remove immediately, or keep the socket in the table. -/
inductive CloseAction where
  | blockAndRemove | removeNow | keep
deriving DecidableEq, Repr

/-- `close_handler` (tcp.rs:530): for CLOSE-WAIT / LAST-ACK sockets, record
`send.unacked_seq = packet.ack` from any arriving segment, with no guard. -/
def close_handler (s : Socket) (p : TCPPacket) : Socket :=
  { s with send_param := { s.send_param with unacked_seq := p.ack } }

/-- `close` (tcp.rs:493): emit FIN|ACK and advance `send.next` before matching
on the status; the status match decides the table action. -/
def close (s : Socket) : Socket × List SentSeg × CloseAction :=
  let seg : SentSeg := ⟨s.send_param.next, s.recv_param.next, FIN ||| ACK, []⟩
  let s1 := { s with send_param := { s.send_param with next := add32 s.send_param.next 1 } }
  match s1.status with
  | TcpStatus.Established =>
      ({ s1 with status := TcpStatus.FinWait1 }, [seg], CloseAction.blockAndRemove)
  | TcpStatus.CloseWait =>
      ({ s1 with status := TcpStatus.LastAck }, [seg], CloseAction.blockAndRemove)
  | TcpStatus.Listen => (s1, [seg], CloseAction.removeNow)
  | _ => (s1, [seg], CloseAction.keep)

/-- The port-acceptance test of `select_unused_port` (tcp.rs:180): the drawn
port must differ from the local port (field `.2`) of every key in the table. -/
def port_unused (keys : List SockID) (local_port : Nat) : Bool :=
  keys.all (fun k => local_port != k.local_port)

/-- The retry loop of `select_unused_port` (tcp.rs:177): `draws i` is the i-th
output of the random generator, `fuel` the remaining iterations. -/
def select_port_loop (draws : Nat → Nat) (keys : List SockID) : Nat → Nat → Option Nat
  | _, 0 => none
  | i, fuel + 1 =>
    if port_unused keys (draws i) then some (draws i)
    else select_port_loop draws keys (i + 1) fuel

/-- `select_unused_port` (tcp.rs:176): up to `PORT_RANGE.end - PORT_RANGE.start`
(20000) random draws; error if none passes the test. -/
def select_unused_port (draws : Nat → Nat) (keys : List SockID) : Option Nat :=
  select_port_loop draws keys 0 (PORT_RANGE_END - PORT_RANGE_START)

/-- The loop of `delete_acked_segment_from_retransmission_queue` (tcp.rs:330):
pop entries whose seq is below `unacked` (plain `u32` comparison), returning
each popped entry's payload length to the window and publishing ACKED. -/
def delete_acked_loop (unacked : Nat) : Nat → List RtxEntry → List RtxEntry × Nat × List TCPEventKind
  | w, [] => ([], w, [])
  | w, e :: rest =>
    if unacked > e.packet.seq then
      let r := delete_acked_loop unacked (add16 w e.packet.payload.length) rest
      (r.1, r.2.1, TCPEventKind.Acked :: r.2.2)
    else (e :: rest, w, [])

/-- `delete_acked_segment_from_retransmission_queue` (tcp.rs:328). -/
def delete_acked_segment (s : Socket) : Socket × List TCPEventKind :=
  let r := delete_acked_loop s.send_param.unacked_seq s.send_param.window s.retransmission_queue
  ({ s with retransmission_queue := r.1,
            send_param := { s.send_param with window := r.2.1 } }, r.2.2)

/-- Write `data` into `buf` starting at offset `off` (models
`buf[off..off+data.length].copy_from_slice(data)`; callers guard bounds). -/
def writeAt (buf : List Nat) (off : Nat) (data : List Nat) : List Nat :=
  buf.take off ++ data ++ buf.drop (off + data.length)

/-- `process_payload` (tcp.rs:439).  `none` models a panic of the slicing
`recv_buffer[offset..offset+copy_size]` (out-of-bounds in release builds; the
debug build already panics at the underflowing subtractions feeding it). -/
def process_payload (s : Socket) (p : TCPPacket) : Option (Socket × List SentSeg × List TCPEventKind) :=
  let cap := s.recv_buffer.length
  let offset := (sub64 cap s.recv_param.window + sub32 p.seq s.recv_param.next) % M64
  let copy_size := min p.payload.length (sub64 cap offset)
  if offset + copy_size ≤ cap then
    let s1 := { s with
      recv_buffer := writeAt s.recv_buffer offset (p.payload.take copy_size),
      recv_param := { s.recv_param with tail := max s.recv_param.tail (add32 p.seq copy_size) } }
    let s2 :=
      if p.seq = s1.recv_param.next then
        { s1 with recv_param := { s1.recv_param with
            next := s1.recv_param.tail,
            window := sub16 s1.recv_param.window (sub32 s1.recv_param.tail p.seq) } }
      else s1
    if 0 < copy_size then
      some (s2, [⟨s2.send_param.next, s2.recv_param.next, ACK, []⟩], [TCPEventKind.DataArrived])
    else
      some (s2, [], [TCPEventKind.DataArrived])
  else none

/-- Tail of `established_handler` after the ACK-advance step (tcp.rs:352):
drop if the ACK flag is absent, deliver a non-empty payload, then handle FIN. -/
def established_tail (s1 : Socket) (evs1 : List TCPEventKind) (p : TCPPacket) :
    Option (Socket × List SentSeg × List TCPEventKind) :=
  if p.flag &&& ACK = 0 then some (s1, [], evs1)
  else
    match (if p.payload ≠ [] then process_payload s1 p else some (s1, [], [])) with
    | none => none
    | some (s2, segs2, evs2) =>
      if p.flag &&& FIN > 0 then
        let s3 := { s2 with
          recv_param := { s2.recv_param with next := add32 p.seq 1 },
          status := TcpStatus.CloseWait }
        some (s3, segs2 ++ [⟨s3.send_param.next, s3.recv_param.next, ACK, []⟩],
              evs1 ++ evs2 ++ [TCPEventKind.DataArrived])
      else some (s2, segs2, evs1 ++ evs2)

/-- `established_handler` (tcp.rs:342). -/
def established_handler (s : Socket) (p : TCPPacket) :
    Option (Socket × List SentSeg × List TCPEventKind) :=
  if s.send_param.unacked_seq < p.ack ∧ p.ack ≤ s.send_param.next then
    let r := delete_acked_segment
      { s with send_param := { s.send_param with unacked_seq := p.ack } }
    established_tail r.1 r.2 p
  else if s.send_param.next < p.ack then some (s, [], [])
  else established_tail s [] p

/-- Tail of `finwait_handler` after the ACK-advance step (tcp.rs:546). -/
def finwait_tail (s1 : Socket) (evs1 : List TCPEventKind) (p : TCPPacket) :
    Option (Socket × List SentSeg × List TCPEventKind) :=
  if p.flag &&& ACK = 0 then some (s1, [], evs1)
  else
    match (if p.payload ≠ [] then process_payload s1 p else some (s1, [], [])) with
    | none => none
    | some (s2, segs2, evs2) =>
      let s3 :=
        if s2.status = TcpStatus.FinWait1 ∧ s2.send_param.next = s2.send_param.unacked_seq
        then { s2 with status := TcpStatus.FinWait2 } else s2
      if p.flag &&& FIN > 0 then
        let s4 := { s3 with recv_param := { s3.recv_param with next := add32 s3.recv_param.next 1 } }
        some (s4, segs2 ++ [⟨s4.send_param.next, s4.recv_param.next, ACK, []⟩],
              evs1 ++ evs2 ++ [TCPEventKind.ConnectionClosed])
      else some (s3, segs2, evs1 ++ evs2)

/-- `finwait_handler` (tcp.rs:536). -/
def finwait_handler (s : Socket) (p : TCPPacket) :
    Option (Socket × List SentSeg × List TCPEventKind) :=
  if s.send_param.unacked_seq < p.ack ∧ p.ack ≤ s.send_param.next then
    let r := delete_acked_segment
      { s with send_param := { s.send_param with unacked_seq := p.ack } }
    finwait_tail r.1 r.2 p
  else if s.send_param.next < p.ack then some (s, [], [])
  else finwait_tail s [] p

/-- `synsent_handler` (tcp.rs:293). -/
def synsent_handler (s : Socket) (p : TCPPacket) :
    Socket × List SentSeg × List TCPEventKind :=
  if p.flag &&& ACK > 0 ∧ s.send_param.unacked_seq ≤ p.ack ∧ p.ack ≤ s.send_param.next
      ∧ p.flag &&& SYN > 0 then
    let s1 := { s with
      recv_param := { s.recv_param with next := add32 p.seq 1, initial_seq := p.seq },
      send_param := { s.send_param with unacked_seq := p.ack, window := p.window_size } }
    if s1.send_param.unacked_seq > s1.send_param.initial_seq then
      ({ s1 with status := TcpStatus.Established },
       [⟨s1.send_param.next, s1.recv_param.next, ACK, []⟩],
       [TCPEventKind.ConnectionCompleted])
    else
      ({ s1 with status := TcpStatus.SynRcvd },
       [⟨s1.send_param.next, s1.recv_param.next, ACK, []⟩], [])
  else (s, [], [])

/-- `synrcvd_handler` (tcp.rs:413).  `parent` is the table entry at the child's
`listening_socket` key; `none` as a result models the `unwrap` panic when that
entry is absent.  Events carry their target id; by table invariant (iv) the
parent entry's own id equals its key, so the event targets the parent's id. -/
def synrcvd_handler (child : Socket) (sockId : SockID) (p : TCPPacket) (parent : Option Socket) :
    Option (Socket × Option Socket × List (SockID × TCPEventKind)) :=
  if p.flag &&& ACK > 0 ∧ child.send_param.unacked_seq ≤ p.ack ∧ p.ack ≤ child.send_param.next then
    let child1 := { child with
      recv_param := { child.recv_param with next := p.seq },
      send_param := { child.send_param with unacked_seq := p.ack },
      status := TcpStatus.Established }
    match child.listening_socket with
    | some pid =>
      match parent with
      | some ls =>
        some (child1,
              some { ls with connection_established_queue := ls.connection_established_queue ++ [sockId] },
              [(pid, TCPEventKind.ConnectionCompleted)])
      | none => none
    | none => some (child1, parent, [])
  else some (child, parent, [])

/-- Result of one timer pass over one socket's retransmission queue. -/
structure TimerResult where
  queue : List RtxEntry
  window : Nat
  events : List TCPEventKind
  resent : List TCPPacket
deriving DecidableEq, Repr

/-- The per-socket drain loop of `timer` (tcp.rs:73): retire fully acked
entries; stop at a head within the timeout (re-queue at front); resend a
timed-out head with remaining retries and re-queue it at the back; drop an
exhausted head, escalating CONNECTION-CLOSED for FIN in closing states. -/
def timer_drain (now : Nat) (status : TcpStatus) (unacked : Nat) : Nat → List RtxEntry → TimerResult
  | w, [] => ⟨[], w, [], []⟩
  | w, item :: rest =>
    if unacked > item.packet.seq then
      let evs1 :=
        if item.packet.flag &&& FIN > 0 ∧ status = TcpStatus.LastAck
        then [TCPEventKind.Acked, TCPEventKind.ConnectionClosed]
        else [TCPEventKind.Acked]
      let r := timer_drain now status unacked (add16 w item.packet.payload.length) rest
      ⟨r.queue, r.window, evs1 ++ r.events, r.resent⟩
    else if now - item.latest_transmission_time < RETRANSMITTION_TIMEOUT then
      ⟨item :: rest, w, [], []⟩
    else if item.transmission_count < MAX_TRANSMITTION then
      ⟨rest ++ [{ item with transmission_count := item.transmission_count + 1,
                            latest_transmission_time := now }],
       w, [], [item.packet]⟩
    else
      let evs1 :=
        if item.packet.flag &&& FIN > 0 ∧
            (status = TcpStatus.LastAck ∨ status = TcpStatus.FinWait1 ∨ status = TcpStatus.FinWait2)
        then [TCPEventKind.ConnectionClosed] else []
      let r := timer_drain now status unacked w rest
      ⟨r.queue, r.window, evs1 ++ r.events, r.resent⟩

/-- The inner body of `send` (tcp.rs:189): emit segments while
`min(MSS, window, remaining)` is positive.  Returns the emitted segments and
the final cursor, `send.next`, and window. -/
def sendBurst (buffer : List Nat) (recv_next : Nat) (cursor next window : Nat) :
    List SentSeg × Nat × Nat × Nat :=
  if h : cursor < buffer.length then
    let send_size := min MSS (min window (buffer.length - cursor))
    if hz : send_size = 0 then ([], cursor, next, window)
    else
      let seg : SentSeg := ⟨next, recv_next, ACK, (buffer.drop cursor).take send_size⟩
      let r := sendBurst buffer recv_next (cursor + send_size) (add32 next send_size)
        (window - send_size)
      (seg :: r.1, r.2.1, r.2.2.1, r.2.2.2)
  else ([], cursor, next, window)
termination_by buffer.length - cursor
decreasing_by
  have h1 : 0 < min MSS (min window (buffer.length - cursor)) := Nat.pos_of_ne_zero hz
  have h2 : min MSS (min window (buffer.length - cursor)) ≤ buffer.length - cursor :=
    le_trans (Nat.min_le_right _ _) (Nat.min_le_right _ _)
  omega

/-- `send` (tcp.rs:187): alternate bursts with waits for ACKED.  Each wait
re-reads `send.window`; `oracle` supplies the window values observed after
each wakeup.  `none` models blocking forever (oracle exhausted at window 0). -/
def sendRun (buffer : List Nat) (recv_next : Nat) : Nat → Nat → Nat → List Nat →
    Option (List SentSeg × Nat × Nat)
  | cursor, next, window, oracle =>
    let r := sendBurst buffer recv_next cursor next window
    if r.2.1 < buffer.length then
      match oracle with
      | [] => none
      | w :: rest =>
        match sendRun buffer recv_next r.2.1 r.2.2.1 w rest with
        | none => none
        | some (segs, n2, w2) => some (r.1 ++ segs, n2, w2)
    else some (r.1, r.2.2.1, r.2.2.2)

/-- One pass of the tail of `recv` (tcp.rs:486): copy `min(out.len, available)`
bytes from the buffer front, shift the buffer left, grow the window.  `none`
models the slice panic when `copy_size` exceeds the buffer length. -/
def recvStep (s : Socket) (outLen : Nat) : Option (Socket × List Nat × Nat) :=
  let received_size := sub64 s.recv_buffer.length s.recv_param.window
  let copy_size := min outLen received_size
  if copy_size ≤ s.recv_buffer.length then
    some ({ s with
        recv_buffer := s.recv_buffer.drop copy_size ++
          s.recv_buffer.drop (s.recv_buffer.length - copy_size),
        recv_param := { s.recv_param with window := add16 s.recv_param.window copy_size } },
      s.recv_buffer.take copy_size, copy_size)
  else none

/-- The waiting loop of `recv` (tcp.rs:472): while no data is available and the
status is none of CLOSE-WAIT, LAST-ACK, TIME-WAIT, wait for DATA-ARRIVED and
re-read the socket; `oracle` supplies the socket states observed after each
wakeup.  `none` models blocking forever. -/
def recvWait (outLen : Nat) : List Socket → Socket → Option (Socket × List Nat × Nat)
  | oracle, s =>
    if sub64 s.recv_buffer.length s.recv_param.window = 0 ∧
        ¬ (s.status = TcpStatus.CloseWait ∨ s.status = TcpStatus.LastAck ∨
           s.status = TcpStatus.TimeWait) then
      match oracle with
      | [] => none
      | s2 :: rest => recvWait outLen rest s2
    else recvStep s outLen

/-- `recv` (tcp.rs:466). -/
def recv (s : Socket) (outLen : Nat) (oracle : List Socket) : Option (Socket × List Nat × Nat) :=
  recvWait outLen oracle s

/-- Ascending order of the retransmission queue by contained sequence number
(spec section 3, retransmission-queue invariant). -/
def seqs_ascend : List RtxEntry → Prop
  | [] => True
  | [_] => True
  | a :: b :: rest => a.packet.seq ≤ b.packet.seq ∧ seqs_ascend (b :: rest)

instance seqs_ascend_dec : (q : List RtxEntry) → Decidable (seqs_ascend q)
  | [] => isTrue trivial
  | [_] => isTrue trivial
  | a :: b :: rest =>
    haveI : Decidable (seqs_ascend (b :: rest)) := seqs_ascend_dec (b :: rest)
    inferInstanceAs (Decidable (a.packet.seq ≤ b.packet.seq ∧ seqs_ascend (b :: rest)))

/-- Consecutiveness of emitted data segments: each segment's sequence number is
the sender's `send.next` at the moment of emission, i.e. the previous seq plus
the previous payload length (mod 2^32). -/
def seqsConsecutive (n : Nat) : List SentSeg → Prop
  | [] => True
  | g :: rest => g.seq = n ∧ seqsConsecutive (add32 n g.payload.length) rest

-- Concrete inputs used by counterexamples, code-bug evaluations and witnesses.

def sock0 : Socket :=
  { status := TcpStatus.Established,
    send_param := { initial_seq := 0, unacked_seq := 0, next := 0, window := 0 },
    recv_param := { initial_seq := 0, next := 0, tail := 0, window := 0 },
    recv_buffer := [], retransmission_queue := [],
    listening_socket := none, connection_established_queue := [] }

def c1sock : Socket := { sock0 with
  status := TcpStatus.LastAck,
  send_param := { initial_seq := 0, unacked_seq := 1000, next := 1005, window := 0 } }

/-- A stray segment whose ack (3000) is far beyond `send.next` (1005). -/
def c1pkt : TCPPacket := { seq := 0, ack := 3000, flag := 16, window_size := 0, payload := [] }

/-- A well-behaved segment for the same socket: ack within [unacked, next]. -/
def c1pktOk : TCPPacket := { seq := 0, ack := 1003, flag := 16, window_size := 0, payload := [] }

def c1wSynSent : Socket := { sock0 with
  status := TcpStatus.SynSent,
  send_param := { initial_seq := 100, unacked_seq := 101, next := 101, window := 0 } }

def c1wSynSentPkt : TCPPacket :=
  { seq := 500, ack := 101, flag := 18, window_size := 1000, payload := [] }

def c1wChild : Socket := { sock0 with
  status := TcpStatus.SynRcvd,
  send_param := { initial_seq := 199, unacked_seq := 200, next := 205, window := 0 } }

def c1wChildPkt : TCPPacket := { seq := 999, ack := 203, flag := 16, window_size := 0, payload := [] }

def c1wEst : Socket := { sock0 with
  send_param := { initial_seq := 0, unacked_seq := 300, next := 310, window := 0 } }

def c1wEstPkt : TCPPacket := { seq := 0, ack := 300, flag := 16, window_size := 0, payload := [] }

def c1wFin : Socket := { sock0 with
  status := TcpStatus.FinWait2,
  send_param := { initial_seq := 0, unacked_seq := 400, next := 400, window := 0 } }

def c1wFinPkt : TCPPacket := { seq := 0, ack := 390, flag := 16, window_size := 0, payload := [] }

def c2sock : Socket := { sock0 with
  recv_buffer := [0, 0, 0, 0],
  recv_param := { initial_seq := 0, next := 10, tail := 10, window := 0 } }

/-- Segment whose buffer offset (4 - 0 + (15 - 10) = 9) exceeds the capacity 4. -/
def c2pkt : TCPPacket := { seq := 15, ack := 0, flag := 16, window_size := 0, payload := [1] }

def c2wSock : Socket := { sock0 with
  recv_buffer := [0, 0, 0, 0],
  recv_param := { initial_seq := 0, next := 10, tail := 12, window := 2 } }

/-- Segment whose buffer offset (4 - 2 + (12 - 10) = 4) equals the capacity 4. -/
def c2wPkt : TCPPacket := { seq := 12, ack := 0, flag := 16, window_size := 0, payload := [9, 9] }

def c3sock : Socket := { sock0 with
  send_param := { initial_seq := 0, unacked_seq := 50, next := 60, window := 0 },
  recv_param := { initial_seq := 0, next := 100, tail := 100, window := 4 },
  recv_buffer := [0, 0, 0, 0] }

/-- A duplicate retransmission: seq 99 is below `recv.next` 100, payload non-empty,
ack equal to `send.unacked_seq` (no ACK advance). -/
def c3pkt : TCPPacket := { seq := 99, ack := 50, flag := 16, window_size := 0, payload := [7] }

def c4p1 : TCPPacket := { seq := 100, ack := 0, flag := 16, window_size := 0, payload := [1] }
def c4p2 : TCPPacket := { seq := 200, ack := 0, flag := 16, window_size := 0, payload := [2] }

/-- Head entry, sent at time 0: timed out at time 10 (RTO is 3 seconds). -/
def c4e1 : RtxEntry := { packet := c4p1, latest_transmission_time := 0, transmission_count := 0 }

/-- Second entry, sent at time 9: still within the timeout at time 10. -/
def c4e2 : RtxEntry := { packet := c4p2, latest_transmission_time := 9, transmission_count := 0 }

def c5sock : Socket := { sock0 with status := TcpStatus.SynSent }

def c5listen : Socket := { sock0 with status := TcpStatus.Listen }

def c6keys : List SockID := [⟨1, 2, 45000, 9⟩]

def c7child : Socket := { sock0 with
  status := TcpStatus.SynRcvd,
  send_param := { initial_seq := 2000, unacked_seq := 2000, next := 2001, window := 0 },
  listening_socket := some ⟨10, 0, 80, 0⟩ }

def c7parent : Socket := { sock0 with status := TcpStatus.Listen }

def c7pkt : TCPPacket := { seq := 1001, ack := 2001, flag := 16, window_size := 500, payload := [] }

def c8sock : Socket := { sock0 with
  status := TcpStatus.SynSent,
  send_param := { initial_seq := 1000, unacked_seq := 1000, next := 1001, window := 0 } }

def c8pkt : TCPPacket := { seq := 3000, ack := 1001, flag := 18, window_size := 777, payload := [] }

def c10sockA : Socket := { sock0 with
  status := TcpStatus.CloseWait,
  recv_buffer := [5, 6, 7, 8],
  recv_param := { initial_seq := 0, next := 0, tail := 0, window := 4 } }

def c10sockB : Socket := { sock0 with
  recv_buffer := [5, 6, 7, 8],
  recv_param := { initial_seq := 0, next := 0, tail := 0, window := 1 } }

/-- Result of the SYN-RCVD handler at `c1wChild` / `c1wChildPkt` (no parent). -/
def c1wChildRes : Socket × Option Socket × List (SockID × TCPEventKind) :=
  ({ c1wChild with
      recv_param := { c1wChild.recv_param with next := 999 },
      send_param := { c1wChild.send_param with unacked_seq := 203 },
      status := TcpStatus.Established }, none, [])

-- Arithmetic helper lemmas.

theorem sub32_eq_of_le {a b : Nat} (h : b ≤ a) (ha : a < M32) : sub32 a b = a - b := by
  simp only [sub32, M32] at ha ⊢
  omega

theorem sub32_self (a : Nat) : sub32 a a = 0 := by
  simp only [sub32, M32]
  omega

theorem sub64_eq_of_le {a b : Nat} (h : b ≤ a) (ha : a < M64) : sub64 a b = a - b := by
  simp only [sub64, M64] at ha ⊢
  omega

theorem sub64_self (a : Nat) : sub64 a a = 0 := by
  simp only [sub64, M64]
  omega

theorem add32_zero {a : Nat} (h : a < M32) : add32 a 0 = a := by
  simp only [add32, M32] at h ⊢
  omega

theorem add16_eq_of_lt {a b : Nat} (h : a + b < M16) : add16 a b = a + b := by
  simp only [add16, M16] at h ⊢
  omega

theorem add32_add32 (n a b : Nat) : add32 (add32 n a) b = add32 n (a + b) := by
  simp only [add32, Nat.mod_add_mod, Nat.add_assoc]

/-- If the plain `u32` comparisons place `a` between `u` and `n`, and the
modular invariant `u ≤ n` held, then the modular `a ≤ n` holds as well. -/
theorem modLe_of_between {u a n : Nat} (h1 : u ≤ a) (h2 : a ≤ n) (hn : n < M32)
    (h : modLe u n) : modLe a n := by
  simp only [modLe, sub32, M32] at hn h ⊢
  omega

-- Facts about which fields the handlers leave untouched.

theorem delete_acked_segment_unacked (s : Socket) :
    (delete_acked_segment s).1.send_param.unacked_seq = s.send_param.unacked_seq := rfl

theorem delete_acked_segment_next (s : Socket) :
    (delete_acked_segment s).1.send_param.next = s.send_param.next := rfl

theorem process_payload_send_param (s : Socket) (p : TCPPacket) (r)
    (h : process_payload s p = some r) : r.1.send_param = s.send_param := by
  simp only [process_payload] at h
  split at h
  · split at h <;> { cases h; split <;> rfl }
  · cases h

theorem established_tail_send_param (s1 : Socket) (evs : List TCPEventKind) (p : TCPPacket) (r)
    (h : established_tail s1 evs p = some r) : r.1.send_param = s1.send_param := by
  unfold established_tail at h
  split at h
  · cases h; rfl
  · cases hm : (if p.payload ≠ [] then process_payload s1 p else some (s1, [], [])) with
    | none => rw [hm] at h; cases h
    | some t =>
      have hts : t.1.send_param = s1.send_param := by
        by_cases hp : p.payload ≠ []
        · rw [if_pos hp] at hm
          exact process_payload_send_param s1 p t hm
        · rw [if_neg hp] at hm
          cases hm; rfl
      rw [hm] at h
      obtain ⟨t1, t2, t3⟩ := t
      dsimp only at h
      by_cases hf : p.flag &&& FIN > 0
      · rw [if_pos hf] at h
        cases h
        simpa using hts
      · rw [if_neg hf] at h
        cases h
        simpa using hts

theorem finwait_tail_send_param (s1 : Socket) (evs : List TCPEventKind) (p : TCPPacket) (r)
    (h : finwait_tail s1 evs p = some r) : r.1.send_param = s1.send_param := by
  unfold finwait_tail at h
  split at h
  · cases h; rfl
  · cases hm : (if p.payload ≠ [] then process_payload s1 p else some (s1, [], [])) with
    | none => rw [hm] at h; cases h
    | some t =>
      have hts : t.1.send_param = s1.send_param := by
        by_cases hp : p.payload ≠ []
        · rw [if_pos hp] at hm
          exact process_payload_send_param s1 p t hm
        · rw [if_neg hp] at hm
          cases hm; rfl
      rw [hm] at h
      obtain ⟨t1, t2, t3⟩ := t
      dsimp only at h
      by_cases hf : p.flag &&& FIN > 0
      · rw [if_pos hf] at h
        cases h
        dsimp only
        split <;> simpa using hts
      · rw [if_neg hf] at h
        cases h
        dsimp only
        split <;> simpa using hts

/-- **C1, counterexample.** The CLOSE-WAIT/LAST-ACK handler does not preserve
`send.unacked_seq ≤ send.next` (modular comparison): a LAST-ACK socket with
`unacked_seq = 1000`, `next = 1005` satisfies the invariant, yet a segment with
ack 3000 — which the handler records unconditionally — violates it. -/
theorem C1_counterexample :
    modLe c1sock.send_param.unacked_seq c1sock.send_param.next ∧
    ¬ modLe (close_handler c1sock c1pkt).send_param.unacked_seq
        (close_handler c1sock c1pkt).send_param.next := by decide

/-- **C1, amended.** Every operation that assigns `send.unacked_seq` behind the
acknowledgment-range guard — the SYN-SENT, SYN-RCVD, ESTABLISHED and
FIN-WAIT-1/2 handlers — preserves `send.unacked_seq ≤ send.next` (modular
comparison); the CLOSE-WAIT/LAST-ACK handler, which records `seg.ack` from any
arriving segment without a guard, preserves it only under the extra hypothesis
that `seg.ack ≤ send.next` modularly. -/
theorem C1_theorem :
    (∀ (s : Socket) (p : TCPPacket),
        s.send_param.next < M32 →
        modLe s.send_param.unacked_seq s.send_param.next →
        modLe (synsent_handler s p).1.send_param.unacked_seq
          (synsent_handler s p).1.send_param.next) ∧
    (∀ (child : Socket) (sid : SockID) (p : TCPPacket) (parent : Option Socket) r,
        synrcvd_handler child sid p parent = some r →
        child.send_param.next < M32 →
        modLe child.send_param.unacked_seq child.send_param.next →
        modLe r.1.send_param.unacked_seq r.1.send_param.next) ∧
    (∀ (s : Socket) (p : TCPPacket) r,
        established_handler s p = some r →
        s.send_param.next < M32 →
        modLe s.send_param.unacked_seq s.send_param.next →
        modLe r.1.send_param.unacked_seq r.1.send_param.next) ∧
    (∀ (s : Socket) (p : TCPPacket) r,
        finwait_handler s p = some r →
        s.send_param.next < M32 →
        modLe s.send_param.unacked_seq s.send_param.next →
        modLe r.1.send_param.unacked_seq r.1.send_param.next) ∧
    (∀ (s : Socket) (p : TCPPacket),
        modLe p.ack s.send_param.next →
        modLe (close_handler s p).send_param.unacked_seq
          (close_handler s p).send_param.next) := by
  refine ⟨?_, ?_, ?_, ?_, ?_⟩
  · intro s p hn hinv
    unfold synsent_handler
    split
    · next hg =>
      dsimp only
      split
      · exact modLe_of_between hg.2.1 hg.2.2.1 hn hinv
      · exact modLe_of_between hg.2.1 hg.2.2.1 hn hinv
    · exact hinv
  · intro child sid p parent r h hn hinv
    unfold synrcvd_handler at h
    split at h
    · next hg =>
      cases hls : child.listening_socket with
      | some pid =>
        rw [hls] at h
        cases parent with
        | some ls =>
          dsimp only at h
          cases h
          exact modLe_of_between hg.2.1 hg.2.2 hn hinv
        | none => dsimp only at h; cases h
      | none =>
        rw [hls] at h
        dsimp only at h
        cases h
        exact modLe_of_between hg.2.1 hg.2.2 hn hinv
    · cases h
      exact hinv
  · intro s p r h hn hinv
    unfold established_handler at h
    split at h
    · next hg =>
      have hsp := established_tail_send_param _ _ _ _ h
      rw [hsp]
      exact modLe_of_between (Nat.le_of_lt hg.1) hg.2 hn hinv
    · split at h
      · cases h
        exact hinv
      · have hsp := established_tail_send_param _ _ _ _ h
        rw [hsp]
        exact hinv
  · intro s p r h hn hinv
    unfold finwait_handler at h
    split at h
    · next hg =>
      have hsp := finwait_tail_send_param _ _ _ _ h
      rw [hsp]
      exact modLe_of_between (Nat.le_of_lt hg.1) hg.2 hn hinv
    · split at h
      · cases h
        exact hinv
      · have hsp := finwait_tail_send_param _ _ _ _ h
        rw [hsp]
        exact hinv
  · intro s p h
    exact h

/-- Witness for C1: each conjunct of `C1_theorem` applied at concrete sockets
and segments, with all hypotheses discharged by evaluation. -/
theorem C1_theorem_witness :
    modLe (synsent_handler c1wSynSent c1wSynSentPkt).1.send_param.unacked_seq
      (synsent_handler c1wSynSent c1wSynSentPkt).1.send_param.next ∧
    modLe c1wChildRes.1.send_param.unacked_seq c1wChildRes.1.send_param.next ∧
    modLe c1wEst.send_param.unacked_seq c1wEst.send_param.next ∧
    modLe c1wFin.send_param.unacked_seq c1wFin.send_param.next ∧
    modLe (close_handler c1sock c1pktOk).send_param.unacked_seq
      (close_handler c1sock c1pktOk).send_param.next :=
  ⟨C1_theorem.1 c1wSynSent c1wSynSentPkt (by decide) (by decide),
   C1_theorem.2.1 c1wChild ⟨0, 0, 0, 0⟩ c1wChildPkt none c1wChildRes
     (by decide) (by decide) (by decide),
   C1_theorem.2.2.1 c1wEst c1wEstPkt (c1wEst, [], []) (by decide) (by decide) (by decide),
   C1_theorem.2.2.2.1 c1wFin c1wFinPkt (c1wFin, [], []) (by decide) (by decide) (by decide),
   C1_theorem.2.2.2.2 c1sock c1pktOk (by decide)⟩

/-- **C5, counterexample.** `close` on a SYN-SENT socket is not a no-op: it
emits a FIN|ACK segment and advances `send.next`, because both happen before
the status match. -/
theorem C5_counterexample :
    ¬ ((close c5sock).2.1 = [] ∧
       (close c5sock).1.send_param.next = c5sock.send_param.next ∧
       (close c5sock).1 = c5sock) := by decide

/-- **C5, amended.** For a socket in a state other than ESTABLISHED,
CLOSE-WAIT or LISTEN, `close` emits one FIN|ACK segment (seq = old
`send.next`, ack = `recv.next`) and advances `send.next` by one, but changes
nothing else, keeps the socket in the table, and returns successfully; for
LISTEN it emits the same segment, advances `send.next`, and removes the
socket immediately without blocking. -/
theorem C5_theorem :
    (∀ s : Socket,
        s.status ≠ TcpStatus.Established → s.status ≠ TcpStatus.CloseWait →
        s.status ≠ TcpStatus.Listen →
        close s =
          ({ s with send_param := { s.send_param with next := add32 s.send_param.next 1 } },
           [⟨s.send_param.next, s.recv_param.next, FIN ||| ACK, []⟩], CloseAction.keep)) ∧
    (∀ s : Socket, s.status = TcpStatus.Listen →
        close s =
          ({ s with send_param := { s.send_param with next := add32 s.send_param.next 1 } },
           [⟨s.send_param.next, s.recv_param.next, FIN ||| ACK, []⟩], CloseAction.removeNow)) := by
  constructor
  · intro s h1 h2 h3
    obtain ⟨st, sp, rp, rb, rq, lsk, cq⟩ := s
    cases st
    all_goals first
      | rfl
      | (exact absurd rfl h1)
      | (exact absurd rfl h2)
      | (exact absurd rfl h3)
  · intro s h
    obtain ⟨st, sp, rp, rb, rq, lsk, cq⟩ := s
    cases st <;> first | rfl | (cases h)

/-- Witness for C5: both conjuncts of `C5_theorem` applied to a SYN-SENT and a
LISTEN socket. -/
theorem C5_theorem_witness :
    close c5sock =
      ({ c5sock with send_param := { c5sock.send_param with next := add32 c5sock.send_param.next 1 } },
       [⟨c5sock.send_param.next, c5sock.recv_param.next, FIN ||| ACK, []⟩], CloseAction.keep) ∧
    close c5listen =
      ({ c5listen with send_param := { c5listen.send_param with next := add32 c5listen.send_param.next 1 } },
       [⟨c5listen.send_param.next, c5listen.recv_param.next, FIN ||| ACK, []⟩], CloseAction.removeNow) :=
  ⟨C5_theorem.1 c5sock (by decide) (by decide) (by decide),
   C5_theorem.2 c5listen (by decide)⟩

/-- **C3.** The payload-delivery procedure is not total on a duplicate
retransmission: at an ESTABLISHED socket expecting seq 100, a one-byte segment
with seq 99 makes the wrapped offset computation huge and the subsequent
slicing panic (`none`); the claim of totality is right about the intent
(spec section 7: sequence-space violations are silently dropped), the code is
wrong. -/
theorem C3_theorem :
    established_handler c3sock c3pkt = none ∧
    c3pkt.seq < c3sock.recv_param.next ∧ c3pkt.payload ≠ [] := by decide

/-- **C2, counterexample.** For a segment whose computed buffer offset (9)
strictly exceeds the capacity (4), `process_payload` does not return normally:
the wrapped `capacity − offset` makes `copy_size = L` and the slicing panics
(`none`), instead of copying zero bytes and logging. -/
theorem C2_counterexample :
    c2sock.recv_buffer.length ≤
      c2sock.recv_buffer.length - c2sock.recv_param.window +
        sub32 c2pkt.seq c2sock.recv_param.next ∧
    process_payload c2sock c2pkt = none := by decide

/-- **C2, amended.** When the computed offset equals the capacity exactly (the
only overflow case the code survives; with `window > 0` so that the segment is
not the in-order one), `process_payload` copies `min(L, capacity − offset) = 0`
bytes, writes nothing to the buffer, emits no segment, merely logs, publishes
DATA-ARRIVED and returns normally — only `recv.tail` may still be advanced to
`max(tail, S)`.  For offset strictly above the capacity the procedure panics
(see the counterexample). -/
theorem C2_theorem (s : Socket) (p : TCPPacket)
    (hwle : s.recv_param.window ≤ s.recv_buffer.length)
    (hwpos : 0 < s.recv_param.window)
    (hcap : s.recv_buffer.length < M64)
    (hseq : p.seq < M32)
    (hoff : s.recv_buffer.length - s.recv_param.window + sub32 p.seq s.recv_param.next =
      s.recv_buffer.length) :
    process_payload s p =
      some ({ s with recv_param := { s.recv_param with tail := max s.recv_param.tail p.seq } },
        [], [TCPEventKind.DataArrived]) := by
  have h1 : sub64 s.recv_buffer.length s.recv_param.window
      = s.recv_buffer.length - s.recv_param.window := sub64_eq_of_le hwle hcap
  have hsub : sub32 p.seq s.recv_param.next = s.recv_param.window := by omega
  have hne : p.seq ≠ s.recv_param.next := by
    intro he
    rw [he, sub32_self] at hsub
    omega
  simp only [process_payload]
  rw [h1, hoff, Nat.mod_eq_of_lt hcap, sub64_self, Nat.min_zero, Nat.add_zero]
  rw [if_pos (Nat.le_refl _)]
  rw [List.take_zero]
  rw [if_neg hne]
  rw [if_neg (Nat.lt_irrefl 0)]
  simp only [writeAt, List.length_nil, List.append_nil, Nat.add_zero, List.take_length,
    List.drop_length, add32_zero hseq]

/-- Witness for C2: `C2_theorem` applied at a socket of capacity 4 with window
2 and a 2-byte segment whose offset is exactly 4. -/
theorem C2_theorem_witness :
    process_payload c2wSock c2wPkt =
      some ({ c2wSock with
              recv_param := { c2wSock.recv_param with
                tail := max c2wSock.recv_param.tail c2wPkt.seq } },
        [], [TCPEventKind.DataArrived]) :=
  C2_theorem c2wSock c2wPkt (by decide) (by decide) (by decide) (by decide) (by decide)

theorem seqs_ascend_tail {a : RtxEntry} {l : List RtxEntry} (h : seqs_ascend (a :: l)) :
    seqs_ascend l := by
  cases l with
  | nil => trivial
  | cons b t => exact h.2

/-- **C4, counterexample.** A sorted two-entry queue ([seq 100, seq 200]) whose
head has timed out with retries below the bound is re-queued at the tail,
producing [seq 200, seq 100]: the resend rule breaks the ascending order. -/
theorem C4_counterexample :
    seqs_ascend [c4e1, c4e2] ∧
    (timer_drain 10 TcpStatus.Established 50 0 [c4e1, c4e2]).resent ≠ [] ∧
    ¬ seqs_ascend (timer_drain 10 TcpStatus.Established 50 0 [c4e1, c4e2]).queue := by decide

/-- **C4, amended.** A timer pass that resends nothing (it only retires acked
entries, stops at a fresh head, or drops exhausted entries) preserves the
ascending-seq order of the retransmission queue, and any timer pass preserves
it on a queue of at most one entry; the resend rule's re-queue at the tail is
order-breaking as soon as a second entry is present (see the counterexample). -/
theorem C4_theorem :
    (∀ (now : Nat) (st : TcpStatus) (unacked : Nat) (q : List RtxEntry) (w : Nat),
        seqs_ascend q → (timer_drain now st unacked w q).resent = [] →
        seqs_ascend (timer_drain now st unacked w q).queue) ∧
    (∀ (now : Nat) (st : TcpStatus) (unacked : Nat) (q : List RtxEntry) (w : Nat),
        q.length ≤ 1 → seqs_ascend (timer_drain now st unacked w q).queue) := by
  constructor
  · intro now st unacked q
    induction q with
    | nil => intro w _ _; trivial
    | cons item rest ih =>
      intro w hsort hres
      unfold timer_drain at hres ⊢
      by_cases h1 : unacked > item.packet.seq
      · rw [if_pos h1] at hres ⊢
        dsimp only at hres ⊢
        exact ih _ (seqs_ascend_tail hsort) hres
      · rw [if_neg h1] at hres ⊢
        by_cases h2 : now - item.latest_transmission_time < RETRANSMITTION_TIMEOUT
        · rw [if_pos h2] at hres ⊢
          exact hsort
        · rw [if_neg h2] at hres ⊢
          by_cases h3 : item.transmission_count < MAX_TRANSMITTION
          · rw [if_pos h3] at hres ⊢
            exact absurd hres (by simp)
          · rw [if_neg h3] at hres ⊢
            dsimp only at hres ⊢
            exact ih _ (seqs_ascend_tail hsort) hres
  · intro now st unacked q w hlen
    match q with
    | [] => trivial
    | [e] =>
      unfold timer_drain
      split
      · trivial
      · split
        · trivial
        · split
          · trivial
          · trivial
    | a :: b :: t => simp at hlen

/-- Witness for C4: both conjuncts of `C4_theorem` at concrete queues — a
fresh-head pass that resends nothing, and a resend pass on a singleton. -/
theorem C4_theorem_witness :
    seqs_ascend (timer_drain 1 TcpStatus.Established 50 0 [c4e2]).queue ∧
    seqs_ascend (timer_drain 10 TcpStatus.Established 50 0 [c4e1]).queue :=
  ⟨C4_theorem.1 1 TcpStatus.Established 50 [c4e2] 0 (by decide) (by decide),
   C4_theorem.2 10 TcpStatus.Established 50 [c4e1] 0 (by decide)⟩

theorem port_unused_true_iff (keys : List SockID) (p : Nat) :
    port_unused keys p = true ↔ ∀ k ∈ keys, p ≠ k.local_port := by
  simp [port_unused, List.all_eq_true, bne_iff_ne]

theorem port_unused_false_iff (keys : List SockID) (p : Nat) :
    port_unused keys p = false ↔ ∃ k ∈ keys, p = k.local_port := by
  constructor
  · intro h
    have h2 : ¬ (port_unused keys p = true) := by simp [h]
    rw [port_unused_true_iff] at h2
    push_neg at h2
    exact h2
  · intro ⟨k, hk, he⟩
    cases hb : port_unused keys p
    · rfl
    · exact absurd ((port_unused_true_iff keys p).mp hb k hk) (by simpa using he)

theorem select_port_loop_some (draws : Nat → Nat) (keys : List SockID) :
    ∀ (fuel i p : Nat), select_port_loop draws keys i fuel = some p →
      port_unused keys p = true := by
  intro fuel
  induction fuel with
  | zero => intro i p h; cases h
  | succ n ih =>
    intro i p h
    unfold select_port_loop at h
    split at h
    · next hcond => cases h; exact hcond
    · exact ih _ _ h

theorem select_port_loop_none_iff (draws : Nat → Nat) (keys : List SockID) :
    ∀ (fuel i : Nat), (select_port_loop draws keys i fuel = none ↔
      ∀ j < fuel, port_unused keys (draws (i + j)) = false) := by
  intro fuel
  induction fuel with
  | zero => intro i; simp [select_port_loop]
  | succ n ih =>
    intro i
    unfold select_port_loop
    by_cases h : port_unused keys (draws i) = true
    · rw [if_pos h]
      constructor
      · intro hc; cases hc
      · intro hall
        have h0 := hall 0 (Nat.succ_pos n)
        rw [Nat.add_zero] at h0
        rw [h0] at h
        cases h
    · rw [if_neg h]
      have hfalse : port_unused keys (draws i) = false := by
        cases hb : port_unused keys (draws i)
        · rfl
        · exact absurd hb h
      rw [ih (i + 1)]
      constructor
      · intro hall j hj
        cases j with
        | zero => rw [Nat.add_zero]; exact hfalse
        | succ m =>
          have := hall m (Nat.lt_of_succ_lt_succ hj)
          have heq : i + 1 + m = i + (m + 1) := by omega
          rw [heq] at this
          exact this
      · intro hall j hj
        have := hall (j + 1) (Nat.succ_lt_succ hj)
        have heq : i + (j + 1) = i + 1 + j := by omega
        rw [heq] at this
        exact this

/-- **C6, counterexample.** With one socket in the table at local port 45000
and a generator that always draws 45000, `select_unused_port` fails even
though the would-be 4-tuple (1, 3, 45000, 8) is not in the table: the
acceptance test compares ports only, not 4-tuples, and repeated colliding
draws exhaust the attempts while free ports exist. -/
theorem C6_counterexample :
    select_unused_port (fun _ => 45000) c6keys = none ∧
    (⟨1, 3, 45000, 8⟩ : SockID) ∉ c6keys := by
  constructor
  · exact (select_port_loop_none_iff (fun _ => 45000) c6keys
      (PORT_RANGE_END - PORT_RANGE_START) 0).mpr (fun j hj => rfl)
  · decide

/-- **C6, amended.** `select_unused_port` makes at most 20000 attempts; a
returned port differs from the local port of every socket in the table
(regardless of the rest of the 4-tuple), and it returns the no-available-port
error exactly when every one of its first 20000 draws equals some socket's
local port — which can happen while free ports (and free 4-tuples) exist. -/
theorem C6_theorem (draws : Nat → Nat) (keys : List SockID) :
    (∀ p, select_unused_port draws keys = some p → ∀ k ∈ keys, p ≠ k.local_port) ∧
    (select_unused_port draws keys = none ↔
      ∀ j < PORT_RANGE_END - PORT_RANGE_START, ∃ k ∈ keys, draws j = k.local_port) := by
  constructor
  · intro p h
    exact (port_unused_true_iff keys p).mp (select_port_loop_some draws keys _ 0 p h)
  · unfold select_unused_port
    rw [select_port_loop_none_iff]
    constructor
    · intro hall j hj
      have := hall j hj
      rw [Nat.zero_add] at this
      exact (port_unused_false_iff keys (draws j)).mp this
    · intro hall j hj
      rw [Nat.zero_add]
      exact (port_unused_false_iff keys (draws j)).mpr (hall j hj)

/-- Witness for C6: `C6_theorem` applied to a generator drawing the free port
40001 over the table `c6keys`. -/
theorem C6_theorem_witness :
    (40001 : Nat) ≠ (SockID.mk 1 2 45000 9).local_port :=
  (C6_theorem (fun _ => 40001) c6keys).1 40001 (by rfl) (SockID.mk 1 2 45000 9) (by decide)

/-- **C7.** In SYN-RCVD, on an ACK with `send.unacked_seq ≤ seg.ack ≤
send.next`, the handler sets `send.unacked_seq = seg.ack` and `recv.next =
seg.seq` (not `seg.seq + 1`), transitions to ESTABLISHED, appends the child's
SockID to the listening parent's `connection_established_queue`, and publishes
CONNECTION-COMPLETED targeted at the parent's id. -/
theorem C7_theorem (child ls : Socket) (sid pid : SockID) (p : TCPPacket)
    (hflag : p.flag &&& ACK > 0)
    (h1 : child.send_param.unacked_seq ≤ p.ack) (h2 : p.ack ≤ child.send_param.next)
    (hls : child.listening_socket = some pid) :
    synrcvd_handler child sid p (some ls) =
      some ({ child with
            recv_param := { child.recv_param with next := p.seq },
            send_param := { child.send_param with unacked_seq := p.ack },
            status := TcpStatus.Established },
        some { ls with connection_established_queue := ls.connection_established_queue ++ [sid] },
        [(pid, TCPEventKind.ConnectionCompleted)]) := by
  unfold synrcvd_handler
  rw [if_pos ⟨hflag, h1, h2⟩, hls]

/-- Witness for C7: `C7_theorem` at a concrete SYN-RCVD child (ISS 2000,
awaiting ack 2001) with a listening parent, on the handshake-completing ACK. -/
theorem C7_theorem_witness :
    synrcvd_handler c7child ⟨10, 99, 80, 777⟩ c7pkt (some c7parent) =
      some ({ c7child with
            recv_param := { c7child.recv_param with next := c7pkt.seq },
            send_param := { c7child.send_param with unacked_seq := c7pkt.ack },
            status := TcpStatus.Established },
        some { c7parent with connection_established_queue :=
          c7parent.connection_established_queue ++ [⟨10, 99, 80, 777⟩] },
        [(⟨10, 0, 80, 0⟩, TCPEventKind.ConnectionCompleted)]) :=
  C7_theorem c7child c7parent ⟨10, 99, 80, 777⟩ ⟨10, 0, 80, 0⟩ c7pkt
    (by decide) (by decide) (by decide) (by decide)

/-- **C8.** In SYN-SENT, on SYN|ACK with `send.unacked_seq ≤ seg.ack ≤
send.next`, the handler records `recv.initial_seq = seg.seq`, `recv.next =
seg.seq + 1`, `send.window = seg.window`, `send.unacked_seq = seg.ack`; if
`send.unacked_seq > send.initial_seq` it moves to ESTABLISHED, emits a bare
ACK and publishes CONNECTION-COMPLETED, otherwise it moves to SYN-RCVD and
emits a bare ACK; any segment failing the flag or range test leaves the socket
unchanged. -/
theorem C8_theorem (s : Socket) (p : TCPPacket)
    (hg : p.flag &&& ACK > 0 ∧ s.send_param.unacked_seq ≤ p.ack ∧
      p.ack ≤ s.send_param.next ∧ p.flag &&& SYN > 0) :
    ((synsent_handler s p).1.recv_param.initial_seq = p.seq ∧
     (synsent_handler s p).1.recv_param.next = add32 p.seq 1 ∧
     (synsent_handler s p).1.send_param.window = p.window_size ∧
     (synsent_handler s p).1.send_param.unacked_seq = p.ack) ∧
    (p.ack > s.send_param.initial_seq →
      (synsent_handler s p).1.status = TcpStatus.Established ∧
      (synsent_handler s p).2.1 = [⟨s.send_param.next, add32 p.seq 1, ACK, []⟩] ∧
      (synsent_handler s p).2.2 = [TCPEventKind.ConnectionCompleted]) ∧
    (¬ p.ack > s.send_param.initial_seq →
      (synsent_handler s p).1.status = TcpStatus.SynRcvd ∧
      (synsent_handler s p).2.1 = [⟨s.send_param.next, add32 p.seq 1, ACK, []⟩] ∧
      (synsent_handler s p).2.2 = []) ∧
    (∀ (q : Socket) (r : TCPPacket),
      ¬ (r.flag &&& ACK > 0 ∧ q.send_param.unacked_seq ≤ r.ack ∧
        r.ack ≤ q.send_param.next ∧ r.flag &&& SYN > 0) →
      synsent_handler q r = (q, [], [])) := by
  refine ⟨?_, ?_, ?_, ?_⟩
  · unfold synsent_handler
    rw [if_pos hg]
    dsimp only
    by_cases hlt : p.ack > s.send_param.initial_seq
    · rw [if_pos hlt]
      exact ⟨rfl, rfl, rfl, rfl⟩
    · rw [if_neg hlt]
      exact ⟨rfl, rfl, rfl, rfl⟩
  · intro hlt
    unfold synsent_handler
    rw [if_pos hg]
    dsimp only
    rw [if_pos hlt]
    exact ⟨rfl, rfl, rfl⟩
  · intro hlt
    unfold synsent_handler
    rw [if_pos hg]
    dsimp only
    rw [if_neg hlt]
    exact ⟨rfl, rfl, rfl⟩
  · intro q r hng
    unfold synsent_handler
    rw [if_neg hng]

/-- Witness for C8: `C8_theorem` at a SYN-SENT socket (ISS 1000) receiving
SYN|ACK with ack 1001, which completes the active open. -/
theorem C8_theorem_witness :
    (synsent_handler c8sock c8pkt).1.status = TcpStatus.Established ∧
    (synsent_handler c8sock c8pkt).2.1 =
      [⟨c8sock.send_param.next, add32 c8pkt.seq 1, ACK, []⟩] ∧
    (synsent_handler c8sock c8pkt).2.2 = [TCPEventKind.ConnectionCompleted] :=
  (C8_theorem c8sock c8pkt (by decide)).2.1 (by decide)

theorem add32_lt (a b : Nat) : add32 a b < M32 := by
  simp only [add32, M32]
  omega

theorem sendBurst_spec (buffer : List Nat) (rn : Nat) :
    ∀ (fuel cursor next window : Nat), buffer.length - cursor ≤ fuel →
      cursor ≤ buffer.length → next < M32 →
      cursor ≤ (sendBurst buffer rn cursor next window).2.1 ∧
      (sendBurst buffer rn cursor next window).2.1 ≤ buffer.length ∧
      (((sendBurst buffer rn cursor next window).1.map SentSeg.payload).flatten =
        (buffer.drop cursor).take ((sendBurst buffer rn cursor next window).2.1 - cursor)) ∧
      (∀ g ∈ (sendBurst buffer rn cursor next window).1,
        g.payload.length ≤ MSS ∧ g.flag = ACK ∧ g.ack = rn ∧ g.payload ≠ []) ∧
      (sendBurst buffer rn cursor next window).2.2.1 =
        add32 next ((sendBurst buffer rn cursor next window).2.1 - cursor) ∧
      seqsConsecutive next (sendBurst buffer rn cursor next window).1 := by
  intro fuel
  induction fuel with
  | zero =>
    intro cursor next window hf hc hn
    have hcl : ¬ cursor < buffer.length := by omega
    unfold sendBurst
    rw [dif_neg hcl]
    refine ⟨Nat.le_refl _, hc, ?_, ?_, ?_, trivial⟩
    · simp
    · intro g hg
      cases hg
    · rw [Nat.sub_self, add32_zero hn]
  | succ n ih =>
    intro cursor next window hf hc hn
    by_cases hcl : cursor < buffer.length
    · unfold sendBurst
      rw [dif_pos hcl]
      dsimp only
      by_cases hz : min MSS (min window (buffer.length - cursor)) = 0
      · rw [dif_pos hz]
        refine ⟨Nat.le_refl _, hc, ?_, ?_, ?_, trivial⟩
        · simp
        · intro g hg
          cases hg
        · rw [Nat.sub_self, add32_zero hn]
      · rw [dif_neg hz]
        have hsz : 0 < min MSS (min window (buffer.length - cursor)) := Nat.pos_of_ne_zero hz
        have hsle : min MSS (min window (buffer.length - cursor)) ≤ buffer.length - cursor :=
          Nat.le_trans (Nat.min_le_right _ _) (Nat.min_le_right _ _)
        have hmss : min MSS (min window (buffer.length - cursor)) ≤ MSS := Nat.min_le_left _ _
        have hc2 : cursor + min MSS (min window (buffer.length - cursor)) ≤ buffer.length := by
          omega
        obtain ⟨ih1, ih2, ih3, ih4, ih5, ih6⟩ :=
          ih (cursor + min MSS (min window (buffer.length - cursor)))
            (add32 next (min MSS (min window (buffer.length - cursor))))
            (window - min MSS (min window (buffer.length - cursor)))
            (by omega) hc2 (add32_lt _ _)
        dsimp only
        have hplen : ((buffer.drop cursor).take
            (min MSS (min window (buffer.length - cursor)))).length =
            min MSS (min window (buffer.length - cursor)) := by
          rw [List.length_take, List.length_drop]
          omega
        refine ⟨by omega, ih2, ?_, ?_, ?_, ?_⟩
        · rw [List.map_cons, List.flatten_cons]
          rw [ih3]
          rw [show buffer.drop (cursor + min MSS (min window (buffer.length - cursor))) =
              (buffer.drop cursor).drop (min MSS (min window (buffer.length - cursor))) by
            rw [List.drop_drop, Nat.add_comm]]
          rw [← List.take_add]
          congr 1
          omega
        · intro g hg
          cases hg with
          | head =>
            exact ⟨by simpa [hplen] using hmss, rfl, rfl, by
              intro hnil
              dsimp only at hnil
              rw [hnil] at hplen
              simp at hplen
              omega⟩
          | tail _ hg2 => exact ih4 g hg2
        · rw [ih5, add32_add32]
          congr 1
          omega
        · refine ⟨rfl, ?_⟩
          dsimp only
          rw [hplen]
          exact ih6
    · unfold sendBurst
      rw [dif_neg hcl]
      refine ⟨Nat.le_refl _, hc, ?_, ?_, ?_, trivial⟩
      · simp
      · intro g hg
        cases hg
      · rw [Nat.sub_self, add32_zero hn]

theorem seqsConsecutive_append (xs ys : List SentSeg) :
    ∀ n, n < M32 → seqsConsecutive n xs →
      seqsConsecutive (add32 n ((xs.map SentSeg.payload).flatten).length) ys →
      seqsConsecutive n (xs ++ ys) := by
  induction xs with
  | nil =>
    intro n hn _ hys
    simpa [add32_zero hn] using hys
  | cons g t ih =>
    intro n hn hxs hys
    refine ⟨hxs.1, ?_⟩
    apply ih (add32 n g.payload.length) (add32_lt _ _) hxs.2
    have hys2 : seqsConsecutive
        (add32 n (g.payload.length + ((t.map SentSeg.payload).flatten).length)) ys := by
      simpa [List.length_append] using hys
    rw [add32_add32]
    exact hys2

theorem sendRun_spec (buffer : List Nat) (rn : Nat) :
    ∀ (oracle : List Nat) (cursor next window : Nat) (segs : List SentSeg) (n2 w2 : Nat),
      cursor ≤ buffer.length → next < M32 →
      sendRun buffer rn cursor next window oracle = some (segs, n2, w2) →
      ((segs.map SentSeg.payload).flatten = buffer.drop cursor ∧
       (∀ g ∈ segs, g.payload.length ≤ MSS ∧ g.flag = ACK ∧ g.ack = rn ∧ g.payload ≠ []) ∧
       seqsConsecutive next segs ∧
       n2 = add32 next (buffer.length - cursor)) := by
  intro oracle
  induction oracle with
  | nil =>
    intro cursor next window segs n2 w2 hc hn h
    unfold sendRun at h
    dsimp only at h
    by_cases hlt : (sendBurst buffer rn cursor next window).2.1 < buffer.length
    · rw [if_pos hlt] at h
      cases h
    · rw [if_neg hlt] at h
      obtain ⟨hb1, hb2, hb3, hb4, hb5, hb6⟩ :=
        sendBurst_spec buffer rn buffer.length cursor next window (by omega) hc hn
      have hcend : (sendBurst buffer rn cursor next window).2.1 = buffer.length := by omega
      cases h
      refine ⟨?_, hb4, hb6, ?_⟩
      · rw [hb3, hcend]
        rw [show List.take (buffer.length - cursor) (List.drop cursor buffer)
            = List.take ((List.drop cursor buffer).length) (List.drop cursor buffer) by
          rw [List.length_drop]]
        exact List.take_length _
      · rw [hb5, hcend]
  | cons w rest ih =>
    intro cursor next window segs n2 w2 hc hn h
    unfold sendRun at h
    dsimp only at h
    by_cases hlt : (sendBurst buffer rn cursor next window).2.1 < buffer.length
    · rw [if_pos hlt] at h
      obtain ⟨hb1, hb2, hb3, hb4, hb5, hb6⟩ :=
        sendBurst_spec buffer rn buffer.length cursor next window (by omega) hc hn
      cases hrec : sendRun buffer rn (sendBurst buffer rn cursor next window).2.1
          (sendBurst buffer rn cursor next window).2.2.1 w rest with
      | none => rw [hrec] at h; cases h
      | some t =>
        obtain ⟨segs2, n3, w3⟩ := t
        rw [hrec] at h
        dsimp only at h
        cases h
        obtain ⟨hr1, hr2, hr3, hr4⟩ := ih _ _ _ _ _ _ hb2
          (by rw [hb5]; exact add32_lt _ _) hrec
        refine ⟨?_, ?_, ?_, ?_⟩
        · rw [List.map_append, List.flatten_append, hb3, hr1]
          rw [show List.drop ((sendBurst buffer rn cursor next window).2.1) buffer
              = List.drop ((sendBurst buffer rn cursor next window).2.1 - cursor)
                  (List.drop cursor buffer) by
            rw [List.drop_drop]
            congr 1
            omega]
          exact List.take_append_drop _ _
        · intro g hg
          rcases List.mem_append.mp hg with hg2 | hg2
          · exact hb4 g hg2
          · exact hr2 g hg2
        · apply seqsConsecutive_append _ _ _ hn hb6
          have hlen2 :
              (((sendBurst buffer rn cursor next window).1.map SentSeg.payload).flatten).length
              = (sendBurst buffer rn cursor next window).2.1 - cursor := by
            rw [hb3, List.length_take, List.length_drop]
            omega
          rw [hlen2, ← hb5]
          exact hr3
        · rw [hr4, hb5, add32_add32]
          congr 1
          omega
    · rw [if_neg hlt] at h
      obtain ⟨hb1, hb2, hb3, hb4, hb5, hb6⟩ :=
        sendBurst_spec buffer rn buffer.length cursor next window (by omega) hc hn
      have hcend : (sendBurst buffer rn cursor next window).2.1 = buffer.length := by omega
      cases h
      refine ⟨?_, hb4, hb6, ?_⟩
      · rw [hb3, hcend]
        rw [show List.take (buffer.length - cursor) (List.drop cursor buffer)
            = List.take ((List.drop cursor buffer).length) (List.drop cursor buffer) by
          rw [List.length_drop]]
        exact List.take_length _
      · rw [hb5, hcend]

/-- **C9.** Whenever `send(id, B)` terminates (the model returns `some`), the
concatenation of the payloads of the emitted segments is exactly `B`, every
segment carries the ACK flag, acknowledges `recv.next`, has a non-empty
payload of at most MSS bytes, and the sequence numbers are consecutive
starting at the initial `send.next` (each segment's seq is the `send.next`
current at its emission); the final `send.next` has advanced by `|B|` mod
2^32. -/
theorem C9_theorem (buffer : List Nat) (rn next window : Nat) (oracle : List Nat)
    (segs : List SentSeg) (n2 w2 : Nat)
    (hn : next < M32)
    (h : sendRun buffer rn 0 next window oracle = some (segs, n2, w2)) :
    (segs.map SentSeg.payload).flatten = buffer ∧
    (∀ g ∈ segs, g.payload.length ≤ MSS ∧ g.flag = ACK ∧ g.ack = rn ∧ g.payload ≠ []) ∧
    seqsConsecutive next segs ∧
    n2 = add32 next buffer.length := by
  obtain ⟨h1, h2, h3, h4⟩ := sendRun_spec buffer rn oracle 0 next window segs n2 w2
    (Nat.zero_le _) hn h
  refine ⟨?_, h2, h3, ?_⟩
  · simpa using h1
  · simpa using h4

/-- Witness for C9: `C9_theorem` on a 2-byte buffer with window 5, which emits
one segment [1, 2] with seq 500 and leaves `send.next` at 502. -/
theorem C9_theorem_witness :
    (([⟨500, 7, ACK, [1, 2]⟩] : List SentSeg).map SentSeg.payload).flatten = [1, 2] ∧
    seqsConsecutive 500 [⟨500, 7, ACK, [1, 2]⟩] ∧
    (502 : Nat) = add32 500 ([1, 2] : List Nat).length :=
  have h : sendRun [1, 2] 7 0 500 5 [] = some ([⟨500, 7, ACK, [1, 2]⟩], 502, 3) := by
    have hb2 : sendBurst [1, 2] 7 2 502 3 = ([], 2, 502, 3) := by
      unfold sendBurst
      simp
    have hb1 : sendBurst [1, 2] 7 0 500 5 = ([⟨500, 7, ACK, [1, 2]⟩], 2, 502, 3) := by
      unfold sendBurst
      simp [MSS, ACK, add32, M32, hb2]
    unfold sendRun
    simp [hb1]
  have hall := C9_theorem [1, 2] 7 500 5 [] [⟨500, 7, ACK, [1, 2]⟩] 502 3 (by decide) h
  ⟨hall.1, hall.2.2.1, hall.2.2.2⟩

/-- **C10.** `recv(id, out)` with `available = capacity − recv.window`: if the
window fills the whole buffer (available 0) and the status is CLOSE-WAIT or
LAST-ACK, it returns 0 at once, changing nothing and consuming no wait; once
available is non-zero it copies `n = min(out.len, available)` bytes from the
buffer front, shifts the buffer left by `n` (the last `n` cells keep their old
values), increases `recv.window` by `n`, and returns `n`. -/
theorem C10_theorem (s : Socket) (outLen : Nat) (oracle : List Socket)
    (hwle : s.recv_param.window ≤ s.recv_buffer.length)
    (h16 : s.recv_buffer.length < M16)
    (h64 : s.recv_buffer.length < M64) :
    ((s.recv_param.window = s.recv_buffer.length →
      (s.status = TcpStatus.CloseWait ∨ s.status = TcpStatus.LastAck) →
      recv s outLen oracle = some (s, [], 0))) ∧
    (s.recv_param.window < s.recv_buffer.length →
      recv s outLen oracle =
        some ({ s with
            recv_buffer :=
              s.recv_buffer.drop (min outLen (s.recv_buffer.length - s.recv_param.window)) ++
                s.recv_buffer.drop (s.recv_buffer.length -
                  min outLen (s.recv_buffer.length - s.recv_param.window)),
            recv_param := { s.recv_param with
              window := s.recv_param.window +
                min outLen (s.recv_buffer.length - s.recv_param.window) } },
          s.recv_buffer.take (min outLen (s.recv_buffer.length - s.recv_param.window)),
          min outLen (s.recv_buffer.length - s.recv_param.window))) := by
  have hsub : sub64 s.recv_buffer.length s.recv_param.window
      = s.recv_buffer.length - s.recv_param.window := sub64_eq_of_le hwle h64
  constructor
  · intro hfull hst
    have havail : sub64 s.recv_buffer.length s.recv_param.window = 0 := by
      rw [hsub, hfull]
      omega
    unfold recv recvWait
    rw [if_neg (by
      intro hc
      rcases hst with h | h <;> exact hc.2 (by simp [h]))]
    unfold recvStep
    dsimp only
    rw [havail]
    rw [Nat.min_zero]
    rw [if_pos (Nat.zero_le _)]
    rw [List.drop_zero, Nat.sub_zero, List.drop_length, List.append_nil, List.take_zero]
    have hwin : add16 s.recv_param.window 0 = s.recv_param.window :=
      add16_eq_of_lt (by omega)
    rw [hwin]
  · intro hlt
    have havail : sub64 s.recv_buffer.length s.recv_param.window
        = s.recv_buffer.length - s.recv_param.window := hsub
    unfold recv recvWait
    rw [if_neg (by
      intro hc
      rw [havail] at hc
      omega)]
    unfold recvStep
    dsimp only
    rw [havail]
    rw [if_pos (by omega)]
    have hwin : add16 s.recv_param.window
        (min outLen (s.recv_buffer.length - s.recv_param.window)) =
        s.recv_param.window + min outLen (s.recv_buffer.length - s.recv_param.window) :=
      add16_eq_of_lt (by omega)
    rw [hwin]

/-- Witness for C10: both conjuncts of `C10_theorem`, at a full-window
CLOSE-WAIT socket (returns 0) and at a socket with 3 available bytes
(returns 3 and shifts the buffer). -/
theorem C10_theorem_witness :
    recv c10sockA 5 [] = some (c10sockA, [], 0) ∧
    recv c10sockB 5 [] =
      some ({ c10sockB with
          recv_buffer :=
            c10sockB.recv_buffer.drop
                (min 5 (c10sockB.recv_buffer.length - c10sockB.recv_param.window)) ++
              c10sockB.recv_buffer.drop (c10sockB.recv_buffer.length -
                min 5 (c10sockB.recv_buffer.length - c10sockB.recv_param.window)),
          recv_param := { c10sockB.recv_param with
            window := c10sockB.recv_param.window +
              min 5 (c10sockB.recv_buffer.length - c10sockB.recv_param.window) } },
        c10sockB.recv_buffer.take
          (min 5 (c10sockB.recv_buffer.length - c10sockB.recv_param.window)),
        min 5 (c10sockB.recv_buffer.length - c10sockB.recv_param.window)) :=
  ⟨(C10_theorem c10sockA 5 [] (by decide) (by decide) (by decide)).1 (by decide) (by decide),
   (C10_theorem c10sockB 5 [] (by decide) (by decide) (by decide)).2 (by decide)⟩

end ToyTcp
